import Mathlib

/-!
Shallow embedding of `src/amethyst_assets/src/loader.rs` (the `Loader`
asset-loading coordinator of the amethyst engine).

Modelling conventions:
* Rust strings (`&str`, `String`) are modelled by their UTF-8 byte
  sequences, `Str := List Nat` (each entry a byte value `< 256`; a valid
  UTF-8 string never contains the byte `0xff`).
* `TypeId::of::<A>()` is modelled by a `Nat` tag (`tid`) carried by every
  call; `Handle<A>` is a slot id paired with that tag, and the type-erased
  `Box<dyn Any + Send + Sync>` stored in the `handles` cache is the handle
  itself, `downcast_ref::<Handle<A>>` succeeding exactly when the stored
  tag equals the requesting tag.
* `AssetStorage::allocate` is modelled by a single fresh-id counter on the
  world (the code has one counter per storage; handles keep their type tag,
  so distinctness statements are unaffected).
* `Progress` effects (`add_assets`, `create_tracker`) of one call are
  returned in the call's outcome; trackers are numbered by a world counter.
* `rayon::ThreadPool::spawn` appends the job closure's captured state to a
  pending-job list; running a job is a separate step (`runJob`), mirroring
  that the closure executes on a worker thread after the call returns.
* Panics (`expect` on `source` lookup and on `downcast_ref`) are modelled
  as an `Except` error; world mutations performed before the panic remain
  visible, as they do in Rust.
* `A::Data` and `F::Options` are modelled by `Nat`; the opaque
  `Arc<dyn Source>` a job captures is modelled by the source's registry id.
-/

/-- UTF-8 byte strings standing in for Rust `&str` / `String`. -/
abbrev Str := List Nat

/-- Embeds `crate::error::Error` — the context attached by `with_context`; only the
`Format(&'static str)` variant is used by `loader.rs`. -/
inductive LoaderError where
  | Format (name : Str)
  deriving DecidableEq, Repr

/-- Embeds `amethyst_error::Error`: an error value optionally wrapped in layers of
context (`ResultExt::with_context` adds one layer). -/
inductive AError where
  | base (msg : Str)
  | context (c : LoaderError) (e : AError)
  deriving DecidableEq, Repr

/-- Embeds `Result::or_else` from Rust: apply `f` only to the `Err` case. -/
def rOrElse (r : Except AError α) (f : AError → Except AError α) : Except AError α :=
  match r with
  | .ok v => .ok v
  | .error e => f e

/-- Embeds `ResultExt::with_context`: wrap the error (if any) in one context layer. -/
def withContext (c : LoaderError) (r : Except AError α) : Except AError α :=
  match r with
  | .ok v => .ok v
  | .error e => .error (.context c e)

/-- Embeds `FormatValue<A>`: decoded data plus optional reload instructions. -/
structure FormatValue where
  data : Nat
  reload : Option Nat
  deriving DecidableEq, Repr

/-- Embeds `FormatValue::data(data)`: data with no reload instructions. -/
def FormatValue.ofData (d : Nat) : FormatValue :=
  { data := d, reload := none }

/-- Embeds `Format<A>`: a name constant and an `import` operation
`(name, source, options, create_reload) -> Result<FormatValue<A>, Error>`. -/
structure Format where
  NAME : Str
  imp : Str → Str → Nat → Bool → Except AError FormatValue

/-- Embeds `Handle<A>`: a reference to a reserved slot of the asset storage,
tagged with the `TypeId` of `A`. Cloning shares the slot, so a clone is
modelled by the same value. -/
structure Handle where
  tid : Nat
  id : Nat
  deriving DecidableEq, Repr

/-- A panic raised by one of the `expect` calls in `loader.rs`. -/
inductive Panic where
  | downcastMismatch   -- "Programmer error: Incorrect type added to map!"
  | noSuchSource       -- "No such source. Maybe you forgot to add it ..."
  deriving DecidableEq, Repr

/-- The captured state of the dispatch closure built by
`load_from_or_else` and handed to `ThreadPool::spawn`. -/
structure Job where
  name : Str
  source : Str            -- the resolved `Arc<dyn Source>`, by registry id
  options : Nat
  hotReload : Bool
  handle : Handle
  tracker : Nat
  format : Format
  orElse : AError → Except AError Nat

/-- Embeds `Processed::NewAsset`: the message a job pushes onto
`storage.processed`. -/
structure ProcessedMsg where
  data : Except AError FormatValue
  handle : Handle
  name : Str
  tracker : Nat

/-- The `Loader` struct's own fields (minus the opaque thread pool). -/
structure Loader where
  hotReload : Bool
  sources : List Str                    -- registered source ids
  handles : List (Nat × Handle)         -- LoadInfoHash ↦ type-erased handle
  deriving Repr

/-- The world a load call can observe and mutate: the loader, the storage
(fresh-slot counter and `processed` queue), the pending jobs handed to the
thread pool, and the tracker-numbering counter. -/
structure World where
  loader : Loader
  allocNext : Nat
  processed : List ProcessedMsg
  pool : List Job
  trackerNext : Nat

/-- The outcome of one public call: the mutated world, the returned handle
(or the panic that unwound), and the `Progress` notifications made on this
call's own progress value. -/
structure CallOutcome where
  world : World
  result : Except Panic Handle
  progressAdded : List Nat     -- arguments of `progress.add_assets` calls
  trackersMade : Nat           -- number of `progress.create_tracker` calls

/- ### Dedup key: `LoadInfo` hashed with `FnvHasher` -/

/-- One step of 64-bit FNV-1a as implemented by the `fnv` crate:
`hash = (hash XOR byte).wrapping_mul(0x100000001b3)`. -/
def fnvStep (h b : Nat) : Nat :=
  ((h ^^^ (b % 256)) * 0x100000001b3) % 2 ^ 64

/-- The 64-bit FNV-1a hash over a byte sequence, offset basis `0xcbf29ce484222325`. -/
def fnv1a (bytes : Str) : Nat :=
  bytes.foldl fnvStep 0xcbf29ce484222325

/-- Little-endian 8-byte encoding of a `u64` (how `Hasher::write_u64`
feeds a `TypeId` into the byte-oriented FNV hasher). -/
def natToLE8 (n : Nat) : Str :=
  [n % 256, n / 2 ^ 8 % 256, n / 2 ^ 16 % 256, n / 2 ^ 24 % 256,
   n / 2 ^ 32 % 256, n / 2 ^ 40 % 256, n / 2 ^ 48 % 256, n / 2 ^ 56 % 256]

/-- The byte stream `#[derive(Hash)]` on `LoadInfo` feeds to the hasher:
each `&str` field writes its bytes followed by the `0xff` terminator, and
the `TypeId` writes its `u64` value. -/
def serializeLoadInfo (path source : Str) (tid : Nat) : Str :=
  path ++ 0xff :: source ++ 0xff :: natToLE8 tid

/-- Embeds `LoadInfoHash::from` applied to `LoadInfo` of the triple. -/
def computeKey (path source : Str) (tid : Nat) : Nat :=
  fnv1a (serializeLoadInfo path source tid)

/- ### The load operations -/

/-- Embeds `Loader::load_from_or_else`, transcribed line by line. The `tid`
argument is `TypeId::of::<A>()` for the target asset type `A`. -/
def load_from_or_else (w : World) (name : Str) (format : Format) (options : Nat)
    (source : Str) (orElse : AError → Except AError Nat) (tid : Nat) : CallOutcome :=
  let key := computeKey name source tid
  match (w.loader.handles.lookup key : Option Handle) with
  | some stored =>
    -- cache hit: downcast, clone, return; no job, no allocation, no progress
    if stored.tid = tid then
      { world := w, result := .ok stored, progressAdded := [], trackersMade := 0 }
    else
      { world := w, result := .error .downcastMismatch,
        progressAdded := [], trackersMade := 0 }
  | none =>
    -- cache miss: allocate a slot, record the erased handle under the key
    let handle : Handle := { tid := tid, id := w.allocNext }
    let w1 : World := { w with
      allocNext := w.allocNext + 1,
      loader := { w.loader with handles := (key, handle) :: w.loader.handles } }
    -- progress.add_assets(1); let tracker = progress.create_tracker();
    let tracker := w1.trackerNext
    let w2 : World := { w1 with trackerNext := w1.trackerNext + 1 }
    -- let source = self.source(source);  -- panics when unregistered
    if w.loader.sources.contains source then
      let job : Job := { name := name, source := source, options := options,
                         hotReload := w.loader.hotReload, handle := handle,
                         tracker := tracker, format := format, orElse := orElse }
      { world := { w2 with pool := w2.pool ++ [job] },
        result := .ok handle, progressAdded := [1], trackersMade := 1 }
    else
      { world := w2, result := .error .noSuchSource,
        progressAdded := [1], trackersMade := 1 }

/-- Embeds `Loader::load_from`: `load_from_or_else` with the identity recovery
closure `|err| Err(err)`. -/
def load_from (w : World) (name : Str) (format : Format) (options : Nat)
    (source : Str) (tid : Nat) : CallOutcome :=
  load_from_or_else w name format options source (fun err => .error err) tid

/-- Embeds `Loader::load`: `load_from` from the default source `""`. -/
def load (w : World) (name : Str) (format : Format) (options : Nat)
    (tid : Nat) : CallOutcome :=
  load_from w name format options [] tid

/-- Embeds `Loader::load_or_else`: `load_from_or_else` from the default source. -/
def load_or_else (w : World) (name : Str) (format : Format) (options : Nat)
    (orElse : AError → Except AError Nat) (tid : Nat) : CallOutcome :=
  load_from_or_else w name format options [] orElse tid

/-- The decode outcome computed inside the job closure:
`format.import(...).or_else(|err| or_else(err).map(FormatValue::data))
.with_context(|_| Error::Format(F::NAME))`. -/
def decodeOutcome (fmtName : Str) (imp : Except AError FormatValue)
    (orElse : AError → Except AError Nat) : Except AError FormatValue :=
  withContext (.Format fmtName) (rOrElse imp (fun err => (orElse err).map FormatValue.ofData))

/-- Running a spawned job on a worker thread: decode, then push exactly the
one `Processed::NewAsset` message onto the `processed` queue. -/
def runJob (j : Job) (processed : List ProcessedMsg) : List ProcessedMsg :=
  let data := decodeOutcome j.format.NAME
    (j.format.imp j.name j.source j.options j.hotReload) j.orElse
  processed ++ [{ data := data, handle := j.handle, name := j.name, tracker := j.tracker }]

/-- The fixed name `"<Data>"` used by `load_from_data`, as UTF-8 bytes. -/
def dataName : Str := [0x3c, 0x44, 0x61, 0x74, 0x61, 0x3e]

/-- Embeds `Loader::load_from_data`: synchronous variant; allocates a handle and
pushes the `Processed::NewAsset` message on the calling thread. -/
def load_from_data (w : World) (data : Nat) (tid : Nat) : CallOutcome :=
  -- progress.add_assets(1); let tracker = progress.create_tracker();
  let tracker := w.trackerNext
  -- let handle = storage.allocate();
  let handle : Handle := { tid := tid, id := w.allocNext }
  { world := { w with
      trackerNext := w.trackerNext + 1,
      allocNext := w.allocNext + 1,
      processed := w.processed ++
        [{ data := .ok (FormatValue.ofData data), handle := handle,
           name := dataName, tracker := tracker }] },
    result := .ok handle, progressAdded := [1], trackersMade := 1 }

/- ### Traces of load calls -/

/-- The arguments of one `load_from_or_else` call (every other load entry
point is an instance with a fixed `source` or `orElse`). -/
structure LoadCall where
  name : Str
  format : Format
  options : Nat
  source : Str
  orElse : AError → Except AError Nat
  tid : Nat

/-- The dedup key a call computes. -/
def LoadCall.key (c : LoadCall) : Nat :=
  computeKey c.name c.source c.tid

/-- Execute one call against a world. -/
def execCall (w : World) (c : LoadCall) : CallOutcome :=
  load_from_or_else w c.name c.format c.options c.source c.orElse c.tid

/-- Execute a sequence of load calls, collecting each call's result. -/
def runTrace (w : World) : List LoadCall → World × List (LoadCall × Except Panic Handle)
  | [] => (w, [])
  | c :: cs =>
    let o := execCall w c
    let r := runTrace o.world cs
    (r.1, (c, o.result) :: r.2)

/-- A fresh loader world: registered sources as given, empty cache, empty
storage and pool (what `Loader::with_default_source` plus `add_source`
calls produce, before any load). -/
def initWorld (sources : List Str) (hot : Bool) : World :=
  { loader := { hotReload := hot, sources := sources, handles := [] },
    allocNext := 0, processed := [], pool := [], trackerNext := 0 }

/-- Number of jobs in a pool whose captured identity matches the request
triple (name, source id, target type). -/
def countTriple (pool : List Job) (n s : Str) (t : Nat) : Nat :=
  pool.countP (fun j => decide (j.name = n ∧ j.source = s ∧ j.handle.tid = t))

/- ### Case lemmas for the admission logic -/

/-- Cache hit with matching type: return the stored handle, change nothing. -/
theorem load_from_or_else_hit (w : World) (name : Str) (format : Format)
    (options : Nat) (source : Str) (orElse : AError → Except AError Nat)
    (tid : Nat) (stored : Handle)
    (h1 : w.loader.handles.lookup (computeKey name source tid) = some stored)
    (h2 : stored.tid = tid) :
    load_from_or_else w name format options source orElse tid =
      { world := w, result := .ok stored, progressAdded := [], trackersMade := 0 } := by
  unfold load_from_or_else
  simp [h1, h2]

/-- Cache hit with a type-erasure mismatch: panic on the downcast,
change nothing. -/
theorem load_from_or_else_hit_mismatch (w : World) (name : Str) (format : Format)
    (options : Nat) (source : Str) (orElse : AError → Except AError Nat)
    (tid : Nat) (stored : Handle)
    (h1 : w.loader.handles.lookup (computeKey name source tid) = some stored)
    (h2 : stored.tid ≠ tid) :
    load_from_or_else w name format options source orElse tid =
      { world := w, result := .error .downcastMismatch,
        progressAdded := [], trackersMade := 0 } := by
  unfold load_from_or_else
  simp [h1, h2]

/-- Cache miss with the source registered: allocate, insert, notify
progress, submit exactly one job, return the fresh handle. -/
theorem load_from_or_else_miss (w : World) (name : Str) (format : Format)
    (options : Nat) (source : Str) (orElse : AError → Except AError Nat)
    (tid : Nat)
    (h1 : w.loader.handles.lookup (computeKey name source tid) = none)
    (h2 : source ∈ w.loader.sources) :
    load_from_or_else w name format options source orElse tid =
      { world := { loader := { hotReload := w.loader.hotReload,
                               sources := w.loader.sources,
                               handles := (computeKey name source tid,
                                 ⟨tid, w.allocNext⟩) :: w.loader.handles },
                   allocNext := w.allocNext + 1,
                   processed := w.processed,
                   pool := w.pool ++
                     [{ name := name, source := source, options := options,
                        hotReload := w.loader.hotReload,
                        handle := ⟨tid, w.allocNext⟩,
                        tracker := w.trackerNext, format := format,
                        orElse := orElse }],
                   trackerNext := w.trackerNext + 1 },
        result := .ok ⟨tid, w.allocNext⟩,
        progressAdded := [1], trackersMade := 1 } := by
  unfold load_from_or_else
  simp [h1, h2]

/-- Cache miss with the source unregistered: allocate, insert, notify
progress, then panic before any job is submitted. -/
theorem load_from_or_else_miss_nosource (w : World) (name : Str) (format : Format)
    (options : Nat) (source : Str) (orElse : AError → Except AError Nat)
    (tid : Nat)
    (h1 : w.loader.handles.lookup (computeKey name source tid) = none)
    (h2 : source ∉ w.loader.sources) :
    load_from_or_else w name format options source orElse tid =
      { world := { loader := { hotReload := w.loader.hotReload,
                               sources := w.loader.sources,
                               handles := (computeKey name source tid,
                                 ⟨tid, w.allocNext⟩) :: w.loader.handles },
                   allocNext := w.allocNext + 1,
                   processed := w.processed,
                   pool := w.pool,
                   trackerNext := w.trackerNext + 1 },
        result := .error .noSuchSource,
        progressAdded := [1], trackersMade := 1 } := by
  unfold load_from_or_else
  simp [h1, h2]

/- ### Persistence and admission lemmas -/

/-- A call never removes or overwrites an existing cache entry. -/
theorem execCall_lookup_persist (w : World) (c : LoadCall) (k : Nat) (e : Handle)
    (h : w.loader.handles.lookup k = some e) :
    (execCall w c).world.loader.handles.lookup k = some e := by
  unfold execCall
  rcases hcase : (w.loader.handles.lookup (computeKey c.name c.source c.tid) :
      Option Handle) with _ | stored
  · have hk : (k == computeKey c.name c.source c.tid) = false := by
      simp only [beq_eq_false_iff_ne, ne_eq]
      intro heq
      rw [heq, hcase] at h
      exact Option.noConfusion h
    by_cases hsrc : c.source ∈ w.loader.sources
    · rw [load_from_or_else_miss w c.name c.format c.options c.source c.orElse
        c.tid hcase hsrc]
      simpa [List.lookup, hk] using h
    · rw [load_from_or_else_miss_nosource w c.name c.format c.options c.source
        c.orElse c.tid hcase hsrc]
      simpa [List.lookup, hk] using h
  · by_cases htid : stored.tid = c.tid
    · rw [load_from_or_else_hit w c.name c.format c.options c.source c.orElse
        c.tid stored hcase htid]
      exact h
    · rw [load_from_or_else_hit_mismatch w c.name c.format c.options c.source
        c.orElse c.tid stored hcase htid]
      exact h

/-- A call that returns a handle leaves that very handle cached under the
call's key. -/
theorem execCall_result_cached (w : World) (c : LoadCall) (h : Handle)
    (hr : (execCall w c).result = .ok h) :
    (execCall w c).world.loader.handles.lookup c.key = some h := by
  unfold execCall at hr ⊢
  rcases hcase : (w.loader.handles.lookup (computeKey c.name c.source c.tid) :
      Option Handle) with _ | stored
  · by_cases hsrc : c.source ∈ w.loader.sources
    · rw [load_from_or_else_miss w c.name c.format c.options c.source c.orElse
        c.tid hcase hsrc] at hr ⊢
      simp only [Except.ok.injEq] at hr
      simp [List.lookup, LoadCall.key, ← hr]
    · rw [load_from_or_else_miss_nosource w c.name c.format c.options c.source
        c.orElse c.tid hcase hsrc] at hr
      exact absurd hr (by simp)
  · by_cases htid : stored.tid = c.tid
    · rw [load_from_or_else_hit w c.name c.format c.options c.source c.orElse
        c.tid stored hcase htid] at hr ⊢
      simp only [Except.ok.injEq] at hr
      rw [show c.key = computeKey c.name c.source c.tid from rfl, ← hr]
      exact hcase
    · rw [load_from_or_else_hit_mismatch w c.name c.format c.options c.source
        c.orElse c.tid stored hcase htid] at hr
      exact absurd hr (by simp)

/-- Cache entries persist across a whole trace of calls. -/
theorem runTrace_lookup_persist (cs : List LoadCall) (w : World) (k : Nat)
    (e : Handle) (h : w.loader.handles.lookup k = some e) :
    (runTrace w cs).1.loader.handles.lookup k = some e := by
  induction cs generalizing w with
  | nil => exact h
  | cons c cs ih =>
    exact ih (execCall w c).world (execCall_lookup_persist w c k e h)

/-- Any handle returned by any call of a trace is cached, at the end of
the trace, under that call's key. -/
theorem runTrace_result_cached (cs : List LoadCall) (w : World) (c : LoadCall)
    (h : Handle) (hmem : (c, Except.ok h) ∈ (runTrace w cs).2) :
    (runTrace w cs).1.loader.handles.lookup c.key = some h := by
  induction cs generalizing w with
  | nil => simp [runTrace] at hmem
  | cons c0 cs ih =>
    simp only [runTrace, List.mem_cons, Prod.mk.injEq] at hmem
    rcases hmem with ⟨rfl, hr⟩ | hmem
    · exact runTrace_lookup_persist cs (execCall w c).world c.key h
        (execCall_result_cached w c h hr.symm)
    · exact ih (execCall w c0).world hmem

/- ### At-most-one-job invariant -/

/-- Upper bound the admission discipline imposes on the number of jobs for
a key: 1 once the key is cached, 0 before. -/
def countBound (hs : List (Nat × Handle)) (k : Nat) : Nat :=
  match hs.lookup k with
  | some _ => 1
  | none => 0

/-- The dispatch invariant: the pool never holds more jobs for a request
triple than the cache state of its key allows. -/
def JobInv (w : World) : Prop :=
  ∀ n s t, countTriple w.pool n s t ≤ countBound w.loader.handles (computeKey n s t)

theorem countBound_le_one (hs : List (Nat × Handle)) (k : Nat) :
    countBound hs k ≤ 1 := by
  unfold countBound
  cases hs.lookup k <;> simp

theorem countTriple_append (p q : List Job) (n s : Str) (t : Nat) :
    countTriple (p ++ q) n s t = countTriple p n s t + countTriple q n s t :=
  List.countP_append ..

theorem countTriple_single (j : Job) (n s : Str) (t : Nat) :
    countTriple [j] n s t =
      if j.name = n ∧ j.source = s ∧ j.handle.tid = t then 1 else 0 := by
  simp [countTriple, List.countP_cons]

/-- One call preserves the dispatch invariant. -/
theorem execCall_jobInv (w : World) (c : LoadCall) (h : JobInv w) :
    JobInv (execCall w c).world := by
  intro n s t
  unfold execCall
  rcases hcase : (w.loader.handles.lookup (computeKey c.name c.source c.tid) :
      Option Handle) with _ | stored
  · by_cases hsrc : c.source ∈ w.loader.sources
    · rw [load_from_or_else_miss w c.name c.format c.options c.source c.orElse
        c.tid hcase hsrc]
      by_cases hkey : computeKey n s t = computeKey c.name c.source c.tid
      · have hb : countTriple w.pool n s t = 0 := by
          have := h n s t
          rw [hkey] at this
          simpa [countBound, hcase] using this
        have hbd : countBound ((computeKey c.name c.source c.tid,
            (⟨c.tid, w.allocNext⟩ : Handle)) :: w.loader.handles)
            (computeKey n s t) = 1 := by
          simp [countBound, List.lookup, hkey]
        simp only [hbd, countTriple_append, hb, countTriple_single]
        split <;> simp
      · have hbne : ((computeKey n s t == computeKey c.name c.source c.tid)) = false := by
          simpa using hkey
        have hbd : countBound ((computeKey c.name c.source c.tid,
            (⟨c.tid, w.allocNext⟩ : Handle)) :: w.loader.handles)
            (computeKey n s t) = countBound w.loader.handles (computeKey n s t) := by
          simp [countBound, List.lookup, hbne]
        have hj : ¬ ((⟨c.name, c.source, c.options, w.loader.hotReload,
            ⟨c.tid, w.allocNext⟩, w.trackerNext, c.format, c.orElse⟩ : Job).name = n
            ∧ (⟨c.name, c.source, c.options, w.loader.hotReload,
            ⟨c.tid, w.allocNext⟩, w.trackerNext, c.format, c.orElse⟩ : Job).source = s
            ∧ (⟨c.name, c.source, c.options, w.loader.hotReload,
            ⟨c.tid, w.allocNext⟩, w.trackerNext, c.format, c.orElse⟩ : Job).handle.tid = t) := by
          rintro ⟨rfl, rfl, rfl⟩
          exact hkey rfl
        simp only [hbd, countTriple_append, countTriple_single, if_neg hj, Nat.add_zero]
        exact h n s t
    · rw [load_from_or_else_miss_nosource w c.name c.format c.options c.source
        c.orElse c.tid hcase hsrc]
      by_cases hkey : computeKey n s t = computeKey c.name c.source c.tid
      · have hb : countTriple w.pool n s t = 0 := by
          have := h n s t
          rw [hkey] at this
          simpa [countBound, hcase] using this
        simp [hb]
      · have hbne : ((computeKey n s t == computeKey c.name c.source c.tid)) = false := by
          simpa using hkey
        have hbd : countBound ((computeKey c.name c.source c.tid,
            (⟨c.tid, w.allocNext⟩ : Handle)) :: w.loader.handles)
            (computeKey n s t) = countBound w.loader.handles (computeKey n s t) := by
          simp [countBound, List.lookup, hbne]
        simp only [hbd]
        exact h n s t
  · by_cases htid : stored.tid = c.tid
    · rw [load_from_or_else_hit w c.name c.format c.options c.source c.orElse
        c.tid stored hcase htid]
      exact h n s t
    · rw [load_from_or_else_hit_mismatch w c.name c.format c.options c.source
        c.orElse c.tid stored hcase htid]
      exact h n s t

/-- The dispatch invariant holds along any trace. -/
theorem runTrace_jobInv (cs : List LoadCall) (w : World) (h : JobInv w) :
    JobInv (runTrace w cs).1 := by
  induction cs generalizing w with
  | nil => exact h
  | cons c cs ih => exact ih (execCall w c).world (execCall_jobInv w c h)

theorem initWorld_jobInv (sources : List Str) (hot : Bool) :
    JobInv (initWorld sources hot) := by
  intro n s t
  simp [initWorld, countTriple]

/-- Once a request's key is cached, no later call ever adds a job for that
request triple. -/
theorem execCall_countTriple_const (w : World) (c : LoadCall) (n s : Str)
    (t : Nat) (e : Handle)
    (h : w.loader.handles.lookup (computeKey n s t) = some e) :
    countTriple (execCall w c).world.pool n s t = countTriple w.pool n s t := by
  unfold execCall
  rcases hcase : (w.loader.handles.lookup (computeKey c.name c.source c.tid) :
      Option Handle) with _ | stored
  · have hkey : ¬ (c.name = n ∧ c.source = s ∧ c.tid = t) := by
      rintro ⟨rfl, rfl, rfl⟩
      rw [h] at hcase
      exact Option.noConfusion hcase
    by_cases hsrc : c.source ∈ w.loader.sources
    · rw [load_from_or_else_miss w c.name c.format c.options c.source c.orElse
        c.tid hcase hsrc]
      simp only [countTriple_append, countTriple_single]
      rw [if_neg hkey, Nat.add_zero]
    · rw [load_from_or_else_miss_nosource w c.name c.format c.options c.source
        c.orElse c.tid hcase hsrc]
  · by_cases htid : stored.tid = c.tid
    · rw [load_from_or_else_hit w c.name c.format c.options c.source c.orElse
        c.tid stored hcase htid]
    · rw [load_from_or_else_hit_mismatch w c.name c.format c.options c.source
        c.orElse c.tid stored hcase htid]

/-- The previous fact, along an arbitrary continuation trace of calls. -/
theorem runTrace_countTriple_const (cs : List LoadCall) (w : World)
    (n s : Str) (t : Nat) (e : Handle)
    (h : w.loader.handles.lookup (computeKey n s t) = some e) :
    countTriple (runTrace w cs).1.pool n s t = countTriple w.pool n s t := by
  induction cs generalizing w with
  | nil => rfl
  | cons c cs ih =>
    calc countTriple (runTrace (execCall w c).world cs).1.pool n s t
        = countTriple (execCall w c).world.pool n s t :=
          ih (execCall w c).world (execCall_lookup_persist w c _ e h)
      _ = countTriple w.pool n s t := execCall_countTriple_const w c n s t e h

/- ### Key-space facts -/

theorem foldl_fnvStep_lt (l : Str) (h0 : Nat) (h : h0 < 2 ^ 64) :
    l.foldl fnvStep h0 < 2 ^ 64 := by
  induction l generalizing h0 with
  | nil => exact h
  | cons b l ih => exact ih _ (Nat.mod_lt _ (by norm_num))

theorem fnv1a_lt (l : Str) : fnv1a l < 2 ^ 64 :=
  foldl_fnvStep_lt l _ (by norm_num)

theorem computeKey_lt (p s : Str) (t : Nat) : computeKey p s t < 2 ^ 64 :=
  fnv1a_lt _

/-- Splitting a `0xff`-terminated field is unambiguous as long as the
field itself contains no `0xff` byte (valid UTF-8 never does). -/
theorem append_ff_inj (p p' r r' : Str) (hp : 255 ∉ p) (hp' : 255 ∉ p')
    (h : p ++ 255 :: r = p' ++ 255 :: r') : p = p' ∧ r = r' := by
  induction p generalizing p' with
  | nil =>
    cases p' with
    | nil =>
      simp only [List.nil_append, List.cons.injEq] at h
      exact ⟨rfl, h.2⟩
    | cons b p' =>
      simp only [List.nil_append, List.cons_append, List.cons.injEq] at h
      exact absurd (h.1 ▸ List.mem_cons_self b p') hp'
  | cons a p ih =>
    cases p' with
    | nil =>
      simp only [List.cons_append, List.nil_append, List.cons.injEq] at h
      exact absurd (h.1 ▸ List.mem_cons_self a p) hp
    | cons b p' =>
      simp only [List.cons_append, List.cons.injEq] at h
      obtain ⟨rfl, h⟩ := h
      have hp2 : 255 ∉ p := fun hm => hp (List.mem_cons_of_mem a hm)
      have hp2' : 255 ∉ p' := fun hm => hp' (List.mem_cons_of_mem a hm)
      obtain ⟨rfl, hr⟩ := ih p' hp2 hp2' h
      exact ⟨rfl, hr⟩

/-- The 8-byte little-endian encoding is injective on `u64` values. -/
theorem natToLE8_inj (t t' : Nat) (ht : t < 2 ^ 64) (ht' : t' < 2 ^ 64)
    (h : natToLE8 t = natToLE8 t') : t = t' := by
  simp only [natToLE8, List.cons.injEq, and_true] at h
  omega

/-- The byte stream fed to the hasher determines the request triple,
provided the string fields are `0xff`-free (true of UTF-8) and the type id
fits in a `u64` (true of a hashed `TypeId`). -/
theorem serializeLoadInfo_inj (p s p' s' : Str) (t t' : Nat)
    (hp : 255 ∉ p) (hs : 255 ∉ s) (hp' : 255 ∉ p') (hs' : 255 ∉ s')
    (ht : t < 2 ^ 64) (ht' : t' < 2 ^ 64)
    (h : serializeLoadInfo p s t = serializeLoadInfo p' s' t') :
    p = p' ∧ s = s' ∧ t = t' := by
  unfold serializeLoadInfo at h
  rw [List.append_assoc, List.cons_append, List.append_assoc, List.cons_append] at h
  obtain ⟨hpe, h2⟩ := append_ff_inj p p' _ _ hp hp' h
  obtain ⟨hse, h3⟩ := append_ff_inj s s' _ _ hs hs' h2
  exact ⟨hpe, hse, natToLE8_inj t t' ht ht' h3⟩

/-- Pigeonhole: the 64-bit key space cannot separate the infinitely many
ASCII path names; some two distinct requests share a dedup key. -/
theorem computeKey_not_injective :
    ∃ p q : List (Fin 128), p ≠ q ∧
      computeKey (p.map Fin.val) [] 0 = computeKey (q.map Fin.val) [] 0 := by
  obtain ⟨p, q, hne, heq⟩ := Finite.exists_ne_map_eq_of_infinite
    (fun p : List (Fin 128) =>
      (⟨computeKey (p.map Fin.val) [] 0, computeKey_lt _ _ _⟩ : Fin (2 ^ 64)))
  exact ⟨p, q, hne, congrArg Fin.val heq⟩

/- ### Concrete fixtures used by witnesses and counterexamples -/

/-- A decoder that always succeeds with data 7 (name "f"). -/
def fmtA : Format :=
  { NAME := [102], imp := fun _ _ _ _ => .ok (FormatValue.ofData 7) }

/-- The identity recovery closure `|err| Err(err)` that `load_from` uses. -/
def idOrElse : AError → Except AError Nat := fun err => .error err

/-- A load of "a" from the default source, target type id 0. -/
def call0 : LoadCall :=
  { name := [97], format := fmtA, options := 0, source := [],
    orElse := idOrElse, tid := 0 }

/-- A load of "a" from the unregistered source "x". -/
def callX : LoadCall :=
  { name := [97], format := fmtA, options := 0, source := [120],
    orElse := idOrElse, tid := 0 }

/-- A fresh world with only the default source registered. -/
def w0 : World := initWorld [[]] true

/-- A handle of type id 0 sitting in slot 5. -/
def e0 : Handle := ⟨0, 5⟩

/-- A world in which the key of `call0` is already cached, mapped to `e0`. -/
def wCached : World :=
  { w0 with loader := { w0.loader with handles := [(call0.key, e0)] } }

/- ### The claims -/

/-- C1 (Deduplication): over any sequence of load calls against a fresh
loader, (a) at most one job is ever submitted per request triple
(name, source id, target type id) for the loader's lifetime, (b) any two
calls with identical triples that return handles return equal handles
(the same underlying slot), and (c) a call that finds its key cached
returns a clone of the stored handle and changes nothing — no job, no
slot, no progress notification. `load`, `load_or_else` and `load_from`
are instances of `load_from_or_else`, so traces of `LoadCall`s cover all
four entry points. -/
theorem C1_dedup (sources : List Str) (hot : Bool) (cs : List LoadCall) :
    (∀ n s t, countTriple (runTrace (initWorld sources hot) cs).1.pool n s t ≤ 1)
    ∧ (∀ x y, x ∈ (runTrace (initWorld sources hot) cs).2 →
        y ∈ (runTrace (initWorld sources hot) cs).2 →
        x.1.name = y.1.name → x.1.source = y.1.source → x.1.tid = y.1.tid →
        ∀ h1 h2, x.2 = .ok h1 → y.2 = .ok h2 → h1 = h2)
    ∧ (∀ (w : World) (c : LoadCall) (e : Handle),
        w.loader.handles.lookup c.key = some e → e.tid = c.tid →
        (execCall w c).world = w ∧ (execCall w c).result = .ok e) := by
  refine ⟨?_, ?_, ?_⟩
  · intro n s t
    exact le_trans (runTrace_jobInv cs _ (initWorld_jobInv sources hot) n s t)
      (countBound_le_one _ _)
  · intro x y hx hy hn hs ht h1 h2 hr1 hr2
    have hx' : (x.1, Except.ok h1) ∈ (runTrace (initWorld sources hot) cs).2 := by
      have hxe : (x.1, Except.ok h1) = x := by rw [← hr1]
      rw [hxe]; exact hx
    have hy' : (y.1, Except.ok h2) ∈ (runTrace (initWorld sources hot) cs).2 := by
      have hye : (y.1, Except.ok h2) = y := by rw [← hr2]
      rw [hye]; exact hy
    have e1 := runTrace_result_cached cs (initWorld sources hot) x.1 h1 hx'
    have e2 := runTrace_result_cached cs (initWorld sources hot) y.1 h2 hy'
    have hkey : x.1.key = y.1.key := by
      unfold LoadCall.key
      rw [hn, hs, ht]
    rw [hkey, e2] at e1
    exact (Option.some.inj e1).symm
  · intro w c e hl ht
    have hh := load_from_or_else_hit w c.name c.format c.options c.source
      c.orElse c.tid e hl ht
    exact ⟨by unfold execCall; rw [hh], by unfold execCall; rw [hh]⟩

/-- Witness for C1: with the key of `call0` cached as `e0`, the hit call
changes nothing and returns `e0`. -/
theorem C1_dedup_witness :
    (execCall wCached call0).world = wCached
    ∧ (execCall wCached call0).result = .ok e0 :=
  (C1_dedup [[]] true []).2.2 wCached call0 e0 (by simp [wCached, List.lookup]) rfl

/-- C2 (Delivery): every job submitted by `load_from_or_else`, when run on
a worker, pushes exactly one `Processed::NewAsset` message, carrying the
destination handle (the one the call returned), the original name, and the
tracker created at submission — whatever the decode outcome is (the format
and its import result are universally quantified inside the call). A job
never terminates without pushing. -/
theorem C2_delivery (w : World) (c : LoadCall)
    (h1 : w.loader.handles.lookup c.key = none)
    (h2 : c.source ∈ w.loader.sources) :
    ∃ j h, (execCall w c).world.pool = w.pool ++ [j]
      ∧ (execCall w c).result = .ok h
      ∧ j.handle = h ∧ j.name = c.name ∧ j.tracker = w.trackerNext
      ∧ ∀ q, ∃ m, runJob j q = q ++ [m]
          ∧ m.handle = h ∧ m.name = c.name ∧ m.tracker = w.trackerNext := by
  have hm := load_from_or_else_miss w c.name c.format c.options c.source
    c.orElse c.tid h1 h2
  refine ⟨{ name := c.name, source := c.source, options := c.options,
            hotReload := w.loader.hotReload, handle := ⟨c.tid, w.allocNext⟩,
            tracker := w.trackerNext, format := c.format, orElse := c.orElse },
          ⟨c.tid, w.allocNext⟩, ?_, ?_, rfl, rfl, rfl, ?_⟩
  · unfold execCall; rw [hm]
  · unfold execCall; rw [hm]
  · intro q
    exact ⟨_, rfl, rfl, rfl, rfl⟩

/-- Witness for C2: the first load of "a" against the fresh world. -/
theorem C2_delivery_witness :
    ∃ j h, (execCall w0 call0).world.pool = w0.pool ++ [j]
      ∧ (execCall w0 call0).result = .ok h
      ∧ j.handle = h ∧ j.name = call0.name ∧ j.tracker = w0.trackerNext
      ∧ ∀ q, ∃ m, runJob j q = q ++ [m]
          ∧ m.handle = h ∧ m.name = call0.name ∧ m.tracker = w0.trackerNext :=
  C2_delivery w0 call0 rfl (by simp [w0, initWorld, call0])

/-- Modelled from the spec's wording of the recovery path (§7): the import
error "is wrapped with context identifying the failing format, then either
passed through unchanged (no recovery transform) or replaced by the
recovery transform's outcome". So the wrap happens first, the transform
sees the wrapped error, and the transform's outcome is delivered as-is. -/
def decodeOutcome_fromSpec (fmtName : Str) (imp : Except AError FormatValue)
    (orElse : AError → Except AError Nat) : Except AError FormatValue :=
  match imp with
  | .ok v => .ok v
  | .error e =>
    match orElse (.context (.Format fmtName) e) with
    | .ok d => .ok (FormatValue.ofData d)
    | .error e2 => .error e2

/-- C3 counterexample: with a recovery transform that itself fails, the
code delivers the transform's error wrapped in the format context (the
wrap is applied after the transform, which receives the raw import error),
whereas the claim's wrap-then-transform order delivers the transform's
error bare. Inputs: format "f", import error "E", transform failing
with "T". -/
theorem C3_recovery_counterexample :
    decodeOutcome [102] (.error (.base [69])) (fun _ => .error (.base [84]))
      = .error (.context (.Format [102]) (.base [84]))
    ∧ decodeOutcome_fromSpec [102] (.error (.base [69])) (fun _ => .error (.base [84]))
      = .error (.base [84])
    ∧ decodeOutcome [102] (.error (.base [69])) (fun _ => .error (.base [84]))
      ≠ decodeOutcome_fromSpec [102] (.error (.base [69])) (fun _ => .error (.base [84])) := by
  refine ⟨rfl, rfl, ?_⟩
  intro hEq
  rw [show decodeOutcome [102] (.error (.base [69])) (fun _ => .error (.base [84]))
        = .error (.context (.Format [102]) (.base [84])) from rfl,
      show decodeOutcome_fromSpec [102] (.error (.base [69])) (fun _ => .error (.base [84]))
        = .error (.base [84]) from rfl] at hEq
  exact AError.noConfusion (Except.error.inj hEq)

/-- C3 (amended): the transform is never invoked when import succeeds;
on a failed import the transform receives the raw import error and its
outcome is delivered, a successful outcome as the data, a failed outcome
wrapped with the format context; without a transform (`load`/`load_from`)
the import error is delivered wrapped with the format context. The job's
delivered message carries exactly this outcome. -/
theorem C3_recovery (fmtName : Str) (orElse : AError → Except AError Nat)
    (v : FormatValue) (e : AError) :
    decodeOutcome fmtName (.ok v) orElse = .ok v
    ∧ decodeOutcome fmtName (.error e) orElse =
        (match orElse e with
         | .ok d => .ok (FormatValue.ofData d)
         | .error e2 => .error (.context (.Format fmtName) e2))
    ∧ decodeOutcome fmtName (.error e) idOrElse =
        .error (.context (.Format fmtName) e)
    ∧ (∀ (j : Job) (q : List ProcessedMsg), runJob j q = q ++
        [{ data := decodeOutcome j.format.NAME
             (j.format.imp j.name j.source j.options j.hotReload) j.orElse,
           handle := j.handle, name := j.name, tracker := j.tracker }]) := by
  refine ⟨rfl, ?_, rfl, fun j q => rfl⟩
  cases horE : orElse e <;> simp [decodeOutcome, rOrElse, withContext, horE, Except.map]

/-- C4 counterexample: the dedup key is a 64-bit FNV-1a hash, so by
pigeonhole two distinct ASCII path names (same source, same target type)
must share a key — "no two logically-distinct requests collapse to the
same key" is not absolutely true of the code. -/
theorem C4_key_counterexample :
    ∃ p q : Str, p ≠ q ∧ (∀ b ∈ p, b < 128) ∧ (∀ b ∈ q, b < 128) ∧
      computeKey p [] 0 = computeKey q [] 0 := by
  obtain ⟨p, q, hne, heq⟩ := computeKey_not_injective
  refine ⟨p.map Fin.val, q.map Fin.val, ?_, ?_, ?_, heq⟩
  · intro h
    exact hne (List.map_injective_iff.mpr Fin.val_injective h)
  · intro b hb
    obtain ⟨a, _, rfl⟩ := List.mem_map.mp hb
    exact a.isLt
  · intro b hb
    obtain ⟨a, _, rfl⟩ := List.mem_map.mp hb
    exact a.isLt

/-- C4 (amended): the dedup key is a deterministic function of
(path, source id, type id) — identical triples always compute the same
key — and the byte stream fed to the hasher determines the triple (for
0xff-free strings, i.e. valid UTF-8, and `u64` type ids), so in particular
two different target types produce different hash inputs; distinct
requests can collide only through a collision of the 64-bit FNV hash
itself, which is unavoidable in principle but treated as negligible. -/
theorem C4_key (p s p' s' : Str) (t t' : Nat)
    (hp : 255 ∉ p) (hs : 255 ∉ s) (hp' : 255 ∉ p') (hs' : 255 ∉ s')
    (ht : t < 2 ^ 64) (ht' : t' < 2 ^ 64) :
    (p = p' → s = s' → t = t' → computeKey p s t = computeKey p' s' t')
    ∧ (serializeLoadInfo p s t = serializeLoadInfo p' s' t'
        ↔ (p = p' ∧ s = s' ∧ t = t')) := by
  constructor
  · rintro rfl rfl rfl
    rfl
  · constructor
    · exact serializeLoadInfo_inj p s p' s' t t' hp hs hp' hs' ht ht'
    · rintro ⟨rfl, rfl, rfl⟩
      rfl

/-- Witness for C4: paths "a" and "b", source "", type ids 0 and 1. -/
theorem C4_key_witness :
    ((([97] : Str) = [98] → ([] : Str) = [] → (0 : Nat) = 1 →
        computeKey [97] [] 0 = computeKey [98] [] 1)
    ∧ (serializeLoadInfo [97] [] 0 = serializeLoadInfo [98] [] 1
        ↔ (([97] : Str) = [98] ∧ ([] : Str) = [] ∧ (0 : Nat) = 1))) :=
  C4_key [97] [] [98] [] 0 1 (by decide) (by decide) (by decide) (by decide)
    (by norm_num) (by norm_num)

/-- C5 (Synchronous variant): `load_from_data` allocates a fresh handle,
pushes the `Processed` message with `Ok(data)` and that handle before
returning, submits nothing to the worker pool, leaves the loader (and its
handle cache) untouched, and notifies progress with `add_assets(1)` and
one tracker. -/
theorem C5_load_from_data (w : World) (d tid : Nat) :
    (load_from_data w d tid).world.processed =
      w.processed ++ [{ data := .ok (FormatValue.ofData d),
                        handle := ⟨tid, w.allocNext⟩, name := dataName,
                        tracker := w.trackerNext }]
    ∧ (load_from_data w d tid).world.pool = w.pool
    ∧ (load_from_data w d tid).result = .ok ⟨tid, w.allocNext⟩
    ∧ (load_from_data w d tid).world.allocNext = w.allocNext + 1
    ∧ (load_from_data w d tid).progressAdded = [1]
    ∧ (load_from_data w d tid).trackersMade = 1
    ∧ (load_from_data w d tid).world.loader = w.loader :=
  ⟨rfl, rfl, rfl, rfl, rfl, rfl, rfl⟩

/-- C6 counterexample: the first load of "a" from the unregistered source
"x" panics (after mutating the cache), so the second identical load hits
the cache and returns a handle normally — a load referencing an
unregistered source id that does **not** fail fatally. -/
theorem C6_counterexample :
    callX.source ∉ w0.loader.sources
    ∧ (execCall w0 callX).result = .error .noSuchSource
    ∧ (execCall (execCall w0 callX).world callX).result = .ok ⟨0, 0⟩ := by
  have hsrc : callX.source ∉ w0.loader.sources := by decide
  have h1 : w0.loader.handles.lookup callX.key = none := rfl
  have hm := load_from_or_else_miss_nosource w0 callX.name callX.format
    callX.options callX.source callX.orElse callX.tid h1 hsrc
  refine ⟨hsrc, ?_, ?_⟩
  · unfold execCall
    rw [hm]
  · unfold execCall
    rw [hm]
    rw [load_from_or_else_hit _ callX.name callX.format callX.options
      callX.source callX.orElse callX.tid ⟨callX.tid, w0.allocNext⟩
      (by simp [List.lookup]) rfl]
    rfl

/-- C6 (amended): a load that references an unregistered source id *and
whose key is not yet cached* fails fatally (panic distinguishable from a
runtime error), synchronously, without submitting a job or pushing a
result; a load whose key is already cached returns the cached handle
without ever consulting the source registry (see C8). -/
theorem C6_unregistered_source (w : World) (c : LoadCall)
    (h1 : w.loader.handles.lookup c.key = none)
    (h2 : c.source ∉ w.loader.sources) :
    (execCall w c).result = .error .noSuchSource
    ∧ (execCall w c).world.pool = w.pool
    ∧ (execCall w c).world.processed = w.processed := by
  have hm := load_from_or_else_miss_nosource w c.name c.format c.options
    c.source c.orElse c.tid h1 h2
  refine ⟨?_, ?_, ?_⟩ <;> unfold execCall <;> rw [hm]

/-- Witness for C6: the first load of "a" from unregistered source "x". -/
theorem C6_unregistered_source_witness :
    (execCall w0 callX).result = .error .noSuchSource
    ∧ (execCall w0 callX).world.pool = w0.pool
    ∧ (execCall w0 callX).world.processed = w0.processed :=
  C6_unregistered_source w0 callX rfl (by decide)

/-- C7 (Non-blocking): a load call pushes no `Processed` message itself
(the only observable of decode work), its returned handle and world are
independent of the decoder entirely (the import operation is never invoked
on the calling thread — the closure is merely queued), and at most one
closure is handed to the pool, to run later. -/
theorem C7_non_blocking (w : World) (name : Str) (f g : Format)
    (options : Nat) (source : Str) (orElse : AError → Except AError Nat)
    (tid : Nat) :
    (load_from_or_else w name f options source orElse tid).world.processed
        = w.processed
    ∧ (load_from_or_else w name f options source orElse tid).result
        = (load_from_or_else w name g options source orElse tid).result
    ∧ ∃ js, (load_from_or_else w name f options source orElse tid).world.pool
        = w.pool ++ js ∧ js.length ≤ 1 := by
  rcases hcase : (w.loader.handles.lookup (computeKey name source tid) :
      Option Handle) with _ | stored
  · by_cases hsrc : source ∈ w.loader.sources
    · rw [load_from_or_else_miss w name f options source orElse tid hcase hsrc,
          load_from_or_else_miss w name g options source orElse tid hcase hsrc]
      exact ⟨rfl, rfl, ⟨[_], rfl, by simp⟩⟩
    · rw [load_from_or_else_miss_nosource w name f options source orElse tid
          hcase hsrc,
          load_from_or_else_miss_nosource w name g options source orElse tid
          hcase hsrc]
      exact ⟨rfl, rfl, ⟨[], by simp, by simp⟩⟩
  · by_cases htid : stored.tid = tid
    · rw [load_from_or_else_hit w name f options source orElse tid stored
          hcase htid,
          load_from_or_else_hit w name g options source orElse tid stored
          hcase htid]
      exact ⟨rfl, rfl, ⟨[], by simp, by simp⟩⟩
    · rw [load_from_or_else_hit_mismatch w name f options source orElse tid
          stored hcase htid,
          load_from_or_else_hit_mismatch w name g options source orElse tid
          stored hcase htid]
      exact ⟨rfl, rfl, ⟨[], by simp, by simp⟩⟩

/-- C8 (Non-atomic fatal path): when `load_from_or_else` is called with an
unregistered source id and an uncached key, the panic happens only after
the handle was inserted into the cache, a slot was allocated,
`add_assets(1)` was called and a tracker was created; nothing is rolled
back. Every subsequent load with the same triple is a cache hit returning
the orphaned handle, and no continuation of load calls ever submits a job
for that triple (so no `Processed` result for it is ever produced — only
jobs push results). -/
theorem C8_orphaned_handle (w : World) (c : LoadCall)
    (h1 : w.loader.handles.lookup c.key = none)
    (h2 : c.source ∉ w.loader.sources) :
    (execCall w c).result = .error .noSuchSource
    ∧ (execCall w c).world.loader.handles.lookup c.key
        = some ⟨c.tid, w.allocNext⟩
    ∧ (execCall w c).world.allocNext = w.allocNext + 1
    ∧ (execCall w c).progressAdded = [1]
    ∧ (execCall w c).trackersMade = 1
    ∧ (execCall w c).world.pool = w.pool
    ∧ (execCall w c).world.processed = w.processed
    ∧ (∀ c' : LoadCall, c'.name = c.name → c'.source = c.source →
        c'.tid = c.tid →
        execCall (execCall w c).world c' =
          { world := (execCall w c).world,
            result := .ok ⟨c.tid, w.allocNext⟩,
            progressAdded := [], trackersMade := 0 })
    ∧ (∀ cs, countTriple (runTrace (execCall w c).world cs).1.pool
          c.name c.source c.tid = countTriple w.pool c.name c.source c.tid) := by
  have hm := load_from_or_else_miss_nosource w c.name c.format c.options
    c.source c.orElse c.tid h1 h2
  have hlook : (execCall w c).world.loader.handles.lookup c.key
      = some ⟨c.tid, w.allocNext⟩ := by
    unfold execCall
    rw [hm]
    simp [List.lookup, LoadCall.key]
  refine ⟨?_, hlook, ?_, ?_, ?_, ?_, ?_, ?_, ?_⟩
  · unfold execCall; rw [hm]
  · unfold execCall; rw [hm]
  · unfold execCall; rw [hm]
  · unfold execCall; rw [hm]
  · unfold execCall; rw [hm]
  · unfold execCall; rw [hm]
  · intro c' hn hs ht
    have hk : c'.key = c.key := by
      unfold LoadCall.key
      rw [hn, hs, ht]
    have hl : (execCall w c).world.loader.handles.lookup c'.key
        = some ⟨c.tid, w.allocNext⟩ := by
      rw [hk]; exact hlook
    have hh := load_from_or_else_hit (execCall w c).world c'.name c'.format
      c'.options c'.source c'.orElse c'.tid ⟨c.tid, w.allocNext⟩ hl
      (by simpa using ht.symm)
    unfold execCall
    exact hh
  · intro cs
    have hcnt := runTrace_countTriple_const cs (execCall w c).world
      c.name c.source c.tid ⟨c.tid, w.allocNext⟩ hlook
    rw [hcnt]
    have : (execCall w c).world.pool = w.pool := by
      unfold execCall; rw [hm]
    rw [this]

/-- Witness for C8: the orphan scenario at the fresh world, via the first
load of "a" from the unregistered source "x". -/
theorem C8_orphaned_handle_witness :
    (execCall w0 callX).result = .error .noSuchSource
    ∧ (execCall w0 callX).world.allocNext = 1
    ∧ (execCall w0 callX).progressAdded = [1] :=
  ⟨(C8_orphaned_handle w0 callX rfl (by decide)).1,
   (C8_orphaned_handle w0 callX rfl (by decide)).2.2.1,
   (C8_orphaned_handle w0 callX rfl (by decide)).2.2.2.1⟩

/-- C9 (Cache-hit frame): a load call that finds its key cached (with the
matching type tag) returns the cloned stored handle and has no other
effect at all: the world is unchanged — no insertion, no allocation, no
job — and the call's progress value receives neither `add_assets` nor
`create_tracker`. -/
theorem C9_cache_hit_frame (w : World) (c : LoadCall) (e : Handle)
    (h1 : w.loader.handles.lookup c.key = some e) (h2 : e.tid = c.tid) :
    execCall w c = { world := w, result := .ok e,
                     progressAdded := [], trackersMade := 0 } := by
  unfold execCall
  exact load_from_or_else_hit w c.name c.format c.options c.source c.orElse
    c.tid e h1 h2

/-- Witness for C9: the hit call against the pre-cached world. -/
theorem C9_cache_hit_frame_witness :
    execCall wCached call0 = { world := wCached, result := .ok e0,
                               progressAdded := [], trackersMade := 0 } :=
  C9_cache_hit_frame wCached call0 e0 (by simp [wCached, List.lookup]) rfl

/-- C10 (load_from_data bypasses deduplication): `load_from_data` never
reads or writes the handle cache; two consecutive calls — even with the
same data and type — allocate two distinct handles and push two distinct
`Processed` messages, both under the fixed name `<Data>`. -/
theorem C10_load_from_data_no_dedup (w : World) (d1 d2 t1 t2 : Nat) :
    (load_from_data (load_from_data w d1 t1).world d2 t2).world.loader.handles
        = w.loader.handles
    ∧ (load_from_data w d1 t1).result = .ok ⟨t1, w.allocNext⟩
    ∧ (load_from_data (load_from_data w d1 t1).world d2 t2).result
        = .ok ⟨t2, w.allocNext + 1⟩
    ∧ (⟨t1, w.allocNext⟩ : Handle) ≠ ⟨t2, w.allocNext + 1⟩
    ∧ (load_from_data (load_from_data w d1 t1).world d2 t2).world.processed
        = w.processed ++
          [{ data := .ok (FormatValue.ofData d1), handle := ⟨t1, w.allocNext⟩,
             name := dataName, tracker := w.trackerNext },
           { data := .ok (FormatValue.ofData d2),
             handle := ⟨t2, w.allocNext + 1⟩,
             name := dataName, tracker := w.trackerNext + 1 }] := by
  refine ⟨rfl, rfl, rfl, ?_, ?_⟩
  · intro hEq
    have := congrArg Handle.id hEq
    simp at this
  · simp [load_from_data]

/-- Witness for C3: with format "f" and a successful import, the recovery
closure is not consulted. -/
theorem C3_recovery_witness :
    decodeOutcome [102] (.ok (FormatValue.ofData 7)) idOrElse
      = .ok (FormatValue.ofData 7) :=
  (C3_recovery [102] idOrElse (FormatValue.ofData 7) (.base [69])).1

/-- Witness for C5: a concrete synchronous load against the fresh world. -/
theorem C5_load_from_data_witness :
    (load_from_data w0 3 0).world.pool = w0.pool
    ∧ (load_from_data w0 3 0).result = .ok ⟨0, 0⟩ :=
  ⟨(C5_load_from_data w0 3 0).2.1, (C5_load_from_data w0 3 0).2.2.1⟩

/-- Witness for C7: a concrete first load pushes no processed message. -/
theorem C7_non_blocking_witness :
    (load_from_or_else w0 [97] fmtA 0 [] idOrElse 0).world.processed
      = w0.processed :=
  (C7_non_blocking w0 [97] fmtA fmtA 0 [] idOrElse 0).1

/-- Witness for C10: two concrete synchronous loads of the same data yield
distinct handles. -/
theorem C10_load_from_data_no_dedup_witness :
    (⟨0, w0.allocNext⟩ : Handle) ≠ ⟨0, w0.allocNext + 1⟩ :=
  (C10_load_from_data_no_dedup w0 1 1 0 0).2.2.2.1
